import Mathlib

/-
Verification of the SillyTavern-Timelines extension core (src/index.js).

The relevant handlers of index.js are embedded shallowly as pure Lean
functions; module-level mutable variables (currentlyHighlighted,
lastContext, showTimeout, the persisted settings object) become explicit
state that each handler threads through. DOM and Cytoscape effects that
the handlers trigger (highlightElements, restoreElements, navigateToMessage,
closeModal, console.error) are recorded as explicit outputs/effect values
instead of being performed.
-/

/- ===== Settings (index.js: defaultSettings, loadSettings, onInputChange) ===== -/

/-- A persisted setting value: index.js stores numbers, strings and booleans
in the flat `extension_settings.timeline` mapping. -/
inductive SettingValue where
  | num (n : Int)
  | str (s : String)
  | bool (b : Bool)
deriving DecidableEq, Repr

/-- The settings object `extension_settings.timeline`, modelled as an
association list of own-properties (insertion order preserved, as in JS). -/
abbrev SettingsStore := List (String × SettingValue)

/-- Property lookup on the settings object: `store[key]`, and
`store.hasOwnProperty(key)` is `(lookupKey key store).isSome`. -/
def lookupKey (key : String) : SettingsStore → Option SettingValue
  | [] => none
  | kv :: rest => if kv.1 = key then some kv.2 else lookupKey key rest

/-- index.js `defaultSettings` (lines 65-81), in source order. -/
def defaultSettings : SettingsStore :=
  [ ("nodeWidth", .num 25),
    ("nodeHeight", .num 25),
    ("nodeSeparation", .num 50),
    ("edgeSeparation", .num 10),
    ("rankSeparation", .num 50),
    ("spacingFactor", .num 1),
    ("nodeShape", .str "ellipse"),
    ("curveStyle", .str "taxi"),
    ("avatarAsRoot", .bool true),
    ("bookmarkColor", .str "#ff0000"),
    ("useChatColors", .bool false),
    ("charNodeColor", .str "#FFFFFF"),
    ("userNodeColor", .str "#ADD8E6"),
    ("edgeColor", .str "#555"),
    ("lockNodes", .bool true) ]

/-- The merge loop of `loadSettings` (index.js lines 104-110): for each
default entry, if the store does not have the key as an own property,
assign the default value (a fresh assignment appends the property). -/
def mergeDefaults : List (String × SettingValue) → SettingsStore → SettingsStore
  | [], store => store
  | kv :: rest, store =>
      mergeDefaults rest
        (if (lookupKey kv.1 store).isSome then store else store ++ [kv])

/-- index.js `loadSettings` (lines 97-110): fill in missing options from
`defaultSettings`, leaving present options untouched. (The subsequent UI
refresh, lines 113-127, only reads the store.) -/
def loadSettings (store : SettingsStore) : SettingsStore :=
  mergeDefaults defaultSettings store

/-- JS assignment `store[key] = v`: overwrite when the key is present,
append the property otherwise. -/
def setSetting (store : SettingsStore) (key : String) (v : SettingValue) : SettingsStore :=
  if (lookupKey key store).isSome then
    store.map (fun kv => if kv.1 = key then (key, v) else kv)
  else
    store ++ [(key, v)]

/- ===== Context / rebuild decision (index.js: updateTimelineDataIfNeeded) ===== -/

/-- The part of the host context that the rebuild decision reads:
`context.characterId` (undefined for group chats, modelled as `none`). -/
structure TLContext where
  characterId : Option String
deriving DecidableEq, Repr

/-- index.js `updateTimelineDataIfNeeded` (lines 507-545), restricted to its
control flow over the module variable `lastContext`: rebuild (and store the
incoming context) iff `!lastContext || lastContext.characterId !==
context.characterId`; the returned Bool is the "did rebuild" flag. -/
def updateTimelineDataIfNeeded (lastContext : Option TLContext) (ctx : TLContext) :
    Bool × Option TLContext :=
  match lastContext with
  | none => (true, some ctx)
  | some last =>
      if last.characterId ≠ ctx.characterId then (true, some ctx)
      else (false, some last)

/-- The module-level mutable state touched by `onInputChange`. -/
structure TimelineGlobals where
  settings : SettingsStore
  lastContext : Option TLContext
deriving Repr

/-- index.js `onInputChange` (lines 632-655): store the changed value under
`settingName` and unconditionally set `lastContext = null` ("Invalidate the
last context to force a data update"). Label text updates and the debounced
save are presentation-only and not part of the state.  The `value` argument
stands for whatever was read from the control (checkbox, color picker or
plain input). -/
def onInputChange (g : TimelineGlobals) (settingName : String) (value : SettingValue) :
    TimelineGlobals :=
  { settings := setSetting g.settings settingName value,
    lastContext := none }

/- ===== Node click navigation (index.js: nodeClickHandler, tap handler) ===== -/

/-- The node fields read by the click path. `depth` stands for the value of
`getNodeDepth(node)` (computed in tl_graph.js from graph structure; here it
is a node attribute, as in the spec data model). `chat_sessions` and
`file_name` mirror `node.data(...)`, with `none` for an undefined field. -/
structure GraphNode where
  depth : Nat
  chat_sessions : Option (List String)
  file_name : Option String
deriving DecidableEq, Repr

/-- index.js `nodeClickHandler` (lines 174-181): navigation fires unless
`chatSessions && chatSessions.length > 1`; the emitted request is
`navigateToMessage(file_name, depth)`, returned here as a value
(navigateToMessage lives in tl_utils.js and is fire-and-forget). -/
def nodeClickHandler (node : GraphNode) : Option (Option String × Nat) :=
  match node.chat_sessions with
  | some sessions =>
      if sessions.length > 1 then none
      else some (node.file_name, node.depth)
  | none => some (node.file_name, node.depth)

/-- The `tap` handler installed by `setupEventHandlers` (index.js lines
426-430): run `nodeClickHandler`, then always call `closeModal()`. The Bool
records that the modal/drawer close was requested. -/
def tapNodeHandler (node : GraphNode) : Option (Option String × Nat) × Bool :=
  (nodeClickHandler node, true)

/- ===== Legend lock state machine (index.js: createLegendItem handlers) ===== -/

/-- State shared by all legend items: the module variable
`currentlyHighlighted` (the locked selector, or null), and the set of legend
rows currently carrying the `active-legend` CSS class, listed by their
selector. -/
structure LegendState where
  currentlyHighlighted : Option String
  activeLegend : List String
deriving DecidableEq, Repr

/-- Graph styling effects requested by the legend handlers
(`highlightElements` / `restoreElements` from tl_style.js). -/
inductive LegendEffect where
  | highlight (selector : String)
  | restore
deriving DecidableEq, Repr

/-- Legend state before any interaction: nothing locked, no active row. -/
def legendInit : LegendState :=
  { currentlyHighlighted := none, activeLegend := [] }

/-- The click handler of `createLegendItem` (index.js lines 274-289), for the
legend row owning `selector`. Returns the new state and the styling effects
in call order. Branches: (1) the clicked row is the locked one — restore,
drop its `active-legend` class, clear the lock; (2) some other selector is
locked — restore, strip `active-legend` from every row, then highlight and
lock this one; (3) nothing locked — highlight and lock this row (no
stripping). -/
def legendClick (st : LegendState) (selector : String) : LegendState × List LegendEffect :=
  if st.currentlyHighlighted = some selector then
    ({ currentlyHighlighted := none, activeLegend := st.activeLegend.erase selector },
     [LegendEffect.restore])
  else if st.currentlyHighlighted.isSome then
    ({ currentlyHighlighted := some selector, activeLegend := [selector] },
     [LegendEffect.restore, LegendEffect.highlight selector])
  else
    ({ currentlyHighlighted := some selector, activeLegend := selector :: st.activeLegend },
     [LegendEffect.highlight selector])

/-- Fold a sequence of legend clicks over the state. -/
def runLegendClicks (st : LegendState) (clicks : List String) : LegendState :=
  clicks.foldl (fun s c => (legendClick s c).1) st

/-- The mouseover handler of `createLegendItem` (index.js lines 259-263):
preview-highlight unless the row has the `active-legend` class or its
selector is the locked one. -/
def legendMouseover (st : LegendState) (selector : String) : Option LegendEffect :=
  if selector ∉ st.activeLegend ∧ st.currentlyHighlighted ≠ some selector then
    some (LegendEffect.highlight selector)
  else none

/-- The mouseout handler of `createLegendItem` (index.js lines 267-271):
restore elements under the same guard as the mouseover preview. -/
def legendMouseout (st : LegendState) (selector : String) : Option LegendEffect :=
  if selector ∉ st.activeLegend ∧ st.currentlyHighlighted ≠ some selector then
    some LegendEffect.restore
  else none

/-- The legend consistency invariant: the rows carrying `active-legend` are
exactly the locked row (if any). Holds at `legendInit` and is preserved by
clicks. -/
def legendInv (st : LegendState) : Prop :=
  st.activeLegend = match st.currentlyHighlighted with
                    | none => []
                    | some s => [s]

/- ===== Legend builder (index.js: createLegend, createLegendItem data) ===== -/

/-- Node fields read by `createLegend`: `node.data('name')` and
`node.style('background-color')`. A JS string is falsy exactly when empty,
so an absent `name` is modelled as `""` (both fail the `if (name ...)`
guard identically). -/
structure LNode where
  name : String
  bgColor : String
deriving DecidableEq, Repr

/-- Edge fields read by `createLegend`: `edge.data('color')` and
`edge.data('bookmarkName')`; absent values modelled as `""` (JS falsy). -/
structure LEdge where
  color : String
  bookmarkName : String
deriving DecidableEq, Repr

/-- One legend row as appended by `createLegendItem`: its swatch color, its
label text and its symbol type ("circle" for node rows, "line" for edge
rows). -/
structure LegendItem where
  color : String
  text : String
  itemType : String
deriving DecidableEq, Repr

/-- The label of an edge legend row (index.js line 226):
`bookmarkName || `Path of ${color}``. -/
def edgeLabel (e : LEdge) : String :=
  if e.bookmarkName ≠ "" then e.bookmarkName else "Path of " ++ e.color

/-- The node loop of `createLegend` (index.js lines 203-214): one "circle"
row per truthy `name` not yet in the `nodeNames` set, in traversal order.
`seen` is the accumulated `nodeNames` set. -/
def nodeLegendItems : List LNode → List String → List LegendItem
  | [], _ => []
  | n :: rest, seen =>
      if n.name ≠ "" ∧ n.name ∉ seen then
        { color := n.bgColor, text := n.name, itemType := "circle" }
          :: nodeLegendItems rest (n.name :: seen)
      else
        nodeLegendItems rest seen

/-- The edge loop of `createLegend` (index.js lines 217-228): one "line" row
per truthy `color` not yet in the `edgeColors` map, labelled by
`edgeLabel`. `seen` is the accumulated key set of `edgeColors`. -/
def edgeLegendItems : List LEdge → List String → List LegendItem
  | [], _ => []
  | e :: rest, seen =>
      if e.color ≠ "" ∧ e.color ∉ seen then
        { color := e.color, text := edgeLabel e, itemType := "line" }
          :: edgeLegendItems rest (e.color :: seen)
      else
        edgeLegendItems rest seen

/-- index.js `createLegend` (lines 197-229): clear the legend container
(`legendContainer.innerHTML = ''`, so `oldLegend` is discarded), then append
all node rows, then all edge rows. -/
def createLegend (oldLegend : List LegendItem) (nodes : List LNode) (edges : List LEdge) :
    List LegendItem :=
  nodeLegendItems nodes [] ++ edgeLegendItems edges []

/-- Specification-side first-seen deduplication: keep the first occurrence
of each string, in order. Used to state what the legend loops compute. -/
def dedupFirst : List String → List String
  | [] => []
  | x :: xs => x :: dedupFirst (xs.filter (fun y => y ≠ x))
termination_by l => l.length
decreasing_by
  simp only [List.length_cons]
  exact Nat.lt_succ_of_le (List.length_filter_le _ _)

/- ===== Search handler (index.js: setupEventHandlers input listener) ===== -/

/-- Node fields read by the search path: speaker label and message text.
Absent values modelled as `""`. -/
structure SNode where
  name : String
  msg : String
deriving DecidableEq, Repr

/-- Contiguous-substring test on character lists: true iff `needle` occurs
inside `haystack`. -/
def listContainsSub (needle : List Char) : List Char → Bool
  | [] => needle.isEmpty
  | c :: t => needle.isPrefixOf (c :: t) || listContainsSub needle t

/-- Lower-casing as a character-list map (models `String.toLowerCase`). -/
def strToLower (s : String) : String :=
  String.mk (s.toList.map Char.toLower)

/-- Modelled from the spec: `highlightNodesByQuery` is implemented in
tl_graph.js, which is not part of this snapshot (src/ has only index.js).
Per the spec it "highlights all nodes whose name or message text contains
the query (case-insensitive substring match); an empty query clears
highlighting". The query arrives already lower-cased (index.js line 389),
so case-folding the node text here yields the case-insensitive match. The
returned list is the set of highlighted nodes. -/
def highlightNodesByQuery (nodes : List SNode) (query : String) : List SNode :=
  if query = "" then []
  else
    nodes.filter (fun n =>
      listContainsSub query.toList (strToLower n.name).toList
      || listContainsSub query.toList (strToLower n.msg).toList)

/-- The `input` listener on `transparent-search` (index.js lines 385-391):
lower-case the field value and call `highlightNodesByQuery`. The handler
never touches `currentlyHighlighted`, so the lock state passes through
unchanged; the pair returned is (highlighted nodes, lock state after). -/
def searchInputHandler (nodes : List SNode) (currentlyHighlighted : Option String)
    (value : String) : List SNode × Option String :=
  (highlightNodesByQuery nodes (strToLower value), currentlyHighlighted)

/- ===== Tooltip delay (index.js: mouseover/mouseout node handlers) ===== -/

/-- Tooltip timer state: `showTimeout` is the module variable holding the id
of the last `setTimeout` (none before any hover); `cancelled` collects ids
passed to `clearTimeout`; `shown` collects ids whose callback ran (i.e.
tooltips that actually appeared). -/
structure TooltipState where
  showTimeout : Option Nat
  cancelled : List Nat
  shown : List Nat
deriving DecidableEq, Repr

/-- Events of the tooltip delay mechanism: `mouseoverNode t` is the
mouseover handler running, with `t` the fresh id returned by `setTimeout`
(index.js lines 455-466); `mouseoutNode` is the mouseout handler (lines
469-480); `timerFire t` is the host timer queue firing timer `t`, which
shows the tooltip unless `t` was cleared. -/
inductive TooltipEvent where
  | mouseoverNode (timerId : Nat)
  | mouseoutNode
  | timerFire (timerId : Nat)
deriving DecidableEq, Repr

/-- One step of the tooltip state machine. `mouseoverNode` overwrites
`showTimeout`; `mouseoutNode` clears the pending timeout if any (the source
does not null the variable afterwards, and neither does the model);
`timerFire` shows the tooltip only for a non-cancelled id (cleared timers
never fire — host timer semantics). -/
def tooltipStep (st : TooltipState) : TooltipEvent → TooltipState
  | .mouseoverNode t => { st with showTimeout := some t }
  | .mouseoutNode =>
      match st.showTimeout with
      | some t => { st with cancelled := t :: st.cancelled }
      | none => st
  | .timerFire t =>
      if t ∈ st.cancelled then st else { st with shown := t :: st.shown }

/-- Run a sequence of tooltip events. -/
def tooltipRun (st : TooltipState) (evts : List TooltipEvent) : TooltipState :=
  evts.foldl tooltipStep st

/- ===== Render guard (index.js: initializeCytoscape, renderCytoscapeDiagram) ===== -/

/-- Observable outcome of a render attempt. -/
structure RenderOutcome where
  diagramBuilt : Bool
  handlersAttached : Bool
  errorReported : Bool
deriving DecidableEq, Repr

/-- index.js `initializeCytoscape` (lines 323-343): when
`document.getElementById('myDiagramDiv')` is null, log a console error and
return null before constructing anything; otherwise build and return the
Cytoscape instance. Result: (instance?, error logged?). -/
def initCytoscape (containerPresent : Bool) : Option Unit × Bool :=
  if containerPresent then (some (), false) else (none, true)

/-- index.js `renderCytoscapeDiagram` (lines 490-497): compute styles, try
to initialize, and attach event handlers only when an instance came back. -/
def renderCytoscapeDiagram (containerPresent : Bool) : RenderOutcome :=
  match initCytoscape containerPresent with
  | (some _, err) =>
      { diagramBuilt := true, handlersAttached := true, errorReported := err }
  | (none, err) =>
      { diagramBuilt := false, handlersAttached := false, errorReported := err }

/- ===== Helper lemmas: settings merge ===== -/

theorem lookupKey_append_some {k : String} {v : SettingValue} {l1 l2 : SettingsStore}
    (h : lookupKey k l1 = some v) : lookupKey k (l1 ++ l2) = some v := by
  induction l1 with
  | nil => simp [lookupKey] at h
  | cons kv rest ih =>
      by_cases hk : kv.1 = k
      · simpa [lookupKey, hk] using h
      · rw [lookupKey] at h
        simp only [hk, if_false] at h
        simpa [lookupKey, hk] using ih h

theorem lookupKey_append_none {k : String} {l1 l2 : SettingsStore}
    (h : lookupKey k l1 = none) : lookupKey k (l1 ++ l2) = lookupKey k l2 := by
  induction l1 with
  | nil => simp [lookupKey]
  | cons kv rest ih =>
      by_cases hk : kv.1 = k
      · simp [lookupKey, hk] at h
      · rw [lookupKey] at h
        simp only [hk, if_false] at h
        simpa [lookupKey, hk] using ih h

theorem mergeDefaults_preserves {k : String} {v : SettingValue} :
    ∀ (ds : List (String × SettingValue)) (store : SettingsStore),
      lookupKey k store = some v → lookupKey k (mergeDefaults ds store) = some v := by
  intro ds
  induction ds with
  | nil => intro store h; simpa [mergeDefaults] using h
  | cons kv rest ih =>
      intro store h
      rw [mergeDefaults]
      by_cases hp : (lookupKey kv.1 store).isSome
      · simpa [hp] using ih store h
      · simp only [hp, if_false]
        exact ih _ (lookupKey_append_some h)

theorem mergeDefaults_fills {k : String} {d : SettingValue} :
    ∀ (ds : List (String × SettingValue)) (store : SettingsStore),
      (ds.map Prod.fst).Nodup → (k, d) ∈ ds → lookupKey k store = none →
      lookupKey k (mergeDefaults ds store) = some d := by
  intro ds
  induction ds with
  | nil => intro store _ hm; simp at hm
  | cons kv rest ih =>
      intro store hnd hm hnone
      have hnd2 : (rest.map Prod.fst).Nodup := (List.nodup_cons.mp hnd).2
      rw [mergeDefaults]
      rcases List.mem_cons.mp hm with heq | hrest
      · subst heq
        simp only [hnone, Option.isSome_none, Bool.false_eq_true, if_false]
        apply mergeDefaults_preserves
        rw [lookupKey_append_none hnone]
        simp [lookupKey]
      · have hk : kv.1 ≠ k := by
          intro hkk
          exact (List.nodup_cons.mp hnd).1
            (hkk ▸ (List.mem_map.mpr ⟨(k, d), hrest, rfl⟩))
        by_cases hp : (lookupKey kv.1 store).isSome
        · simpa [hp] using ih store hnd2 hrest hnone
        · simp only [hp, if_false]
          refine ih _ hnd2 hrest ?_
          show lookupKey k (store ++ [kv]) = none
          rw [lookupKey_append_none hnone]
          simp [lookupKey, hk]

/-- Claim C8: loading settings fills in a default value only for each option
key that is missing from the pre-existing mapping, and leaves the value of
every already-present option key unchanged. -/
theorem loadSettings_merges_missing_only (store : SettingsStore) :
    (∀ k v, lookupKey k store = some v → lookupKey k (loadSettings store) = some v)
  ∧ (∀ k d, (k, d) ∈ defaultSettings → lookupKey k store = none →
      lookupKey k (loadSettings store) = some d) := by
  constructor
  · intro k v h
    exact mergeDefaults_preserves defaultSettings store h
  · intro k d hmem h
    refine mergeDefaults_fills defaultSettings store ?_ hmem h
    decide

/-- Witness for C8 at a concrete store: a present key keeps its value, a
missing key receives its default. -/
theorem loadSettings_merges_missing_only_witness :
    lookupKey "nodeWidth" (loadSettings [("nodeWidth", SettingValue.num 99)])
      = some (SettingValue.num 99)
  ∧ lookupKey "lockNodes" (loadSettings [("nodeWidth", SettingValue.num 99)])
      = some (SettingValue.bool true) :=
  ⟨(loadSettings_merges_missing_only [("nodeWidth", SettingValue.num 99)]).1
      "nodeWidth" (SettingValue.num 99) (by decide),
   (loadSettings_merges_missing_only [("nodeWidth", SettingValue.num 99)]).2
      "lockNodes" (SettingValue.bool true) (by decide) (by decide)⟩

/- ===== Claim C2: rebuild decision ===== -/

/-- Claim C2: the rebuild decision returns true iff the store has never been
built (`lastContext` null) or the incoming context identifier differs from
the stored one; and a second call with the same context right after a first
one returns false. -/
theorem updateTimelineDataIfNeeded_rebuild_iff (last : Option TLContext) (ctx : TLContext) :
    ((updateTimelineDataIfNeeded last ctx).1 = true ↔
        last = none ∨ ∃ lc, last = some lc ∧ lc.characterId ≠ ctx.characterId)
  ∧ (updateTimelineDataIfNeeded (updateTimelineDataIfNeeded last ctx).2 ctx).1 = false := by
  constructor
  · cases last with
    | none => simp [updateTimelineDataIfNeeded]
    | some lc =>
        by_cases h : lc.characterId = ctx.characterId <;>
          simp [updateTimelineDataIfNeeded, h]
  · cases last with
    | none => simp [updateTimelineDataIfNeeded]
    | some lc =>
        by_cases h : lc.characterId = ctx.characterId <;>
          simp [updateTimelineDataIfNeeded, h]

/- ===== Claim C10: settings change forces rebuild ===== -/

/-- Claim C10: every input-change event (any control, not only reset) nulls
`lastContext`, so the next timeline activation reports didRebuild = true for
any incoming context — even one equal to the previously stored context and
even when the written value equals the old one. -/
theorem onInputChange_forces_rebuild (g : TimelineGlobals) (settingName : String)
    (v : SettingValue) (ctx : TLContext) :
    (onInputChange g settingName v).lastContext = none
  ∧ (updateTimelineDataIfNeeded (onInputChange g settingName v).lastContext ctx).1 = true :=
  ⟨rfl, rfl⟩

/- ===== Claim C7: missing render target ===== -/

/-- Claim C7: when the render container is absent, the render operation
builds no diagram, attaches no event handlers, and reports the condition
(console error); `initCytoscape` returns no instance. -/
theorem renderCytoscapeDiagram_missing_container :
    renderCytoscapeDiagram false
      = { diagramBuilt := false, handlersAttached := false, errorReported := true }
  ∧ (initCytoscape false).1 = none :=
  ⟨rfl, rfl⟩

/- ===== Claim C1: node click navigation ===== -/

/-- Claim C1: for a node whose `chat_sessions` set is present and non-empty
(data-model invariant: size ≥ 1), direct activation emits a navigate
request (sessionId = file_name, depth) iff exactly one session is
associated; with more than one session no navigation is emitted, and the
tap handler still closes the open modal/drawer. -/
theorem nodeClickHandler_single_session (node : GraphNode) (sessions : List String)
    (hs : node.chat_sessions = some sessions) (hlen : 1 ≤ sessions.length) :
    ((nodeClickHandler node).isSome ↔ sessions.length = 1)
  ∧ (sessions.length = 1 → nodeClickHandler node = some (node.file_name, node.depth))
  ∧ (1 < sessions.length →
      nodeClickHandler node = none ∧ (tapNodeHandler node).2 = true) := by
  refine ⟨?_, ?_, ?_⟩
  · simp only [nodeClickHandler, hs]
    by_cases h : sessions.length > 1
    · simp only [h, if_true]
      simp only [Option.isSome_none, Bool.false_eq_true, false_iff]
      omega
    · simp only [h, if_false]
      simp only [Option.isSome_some, true_iff]
      omega
  · intro h1
    simp [nodeClickHandler, hs, h1]
  · intro h1
    refine ⟨?_, rfl⟩
    simp [nodeClickHandler, hs, h1]

/-- Witness for C1: a single-session node navigates to (its file_name, its
depth); a two-session node does not navigate but still closes the modal. -/
theorem nodeClickHandler_single_session_witness :
    nodeClickHandler { depth := 5, chat_sessions := some ["s1"], file_name := some "chatA" }
      = some (some "chatA", 5)
  ∧ nodeClickHandler { depth := 5, chat_sessions := some ["s1", "s2"], file_name := some "chatA" }
      = none
  ∧ (tapNodeHandler { depth := 5, chat_sessions := some ["s1", "s2"], file_name := some "chatA" }).2
      = true :=
  ⟨(nodeClickHandler_single_session _ ["s1"] rfl (by decide)).2.1 rfl,
   ((nodeClickHandler_single_session _ ["s1", "s2"] rfl (by decide)).2.2 (by decide)).1,
   ((nodeClickHandler_single_session _ ["s1", "s2"] rfl (by decide)).2.2 (by decide)).2⟩

/- ===== Helper lemmas: legend lock invariant ===== -/

theorem legendInv_init : legendInv legendInit := rfl

theorem legendInv_click (st : LegendState) (s : String) (h : legendInv st) :
    legendInv (legendClick st s).1 := by
  cases hc : st.currentlyHighlighted with
  | none =>
      have ha : st.activeLegend = [] := by simpa [legendInv, hc] using h
      simp [legendClick, legendInv, hc, ha]
  | some t =>
      have ha : st.activeLegend = [t] := by simpa [legendInv, hc] using h
      by_cases hts : t = s
      · subst hts
        simp [legendClick, legendInv, hc, ha]
      · have hne : ¬ st.currentlyHighlighted = some s := by simp [hc, hts]
        simp [legendClick, legendInv, hc, ha, hne, hts]

theorem legendInv_run (clicks : List String) :
    ∀ st : LegendState, legendInv st → legendInv (runLegendClicks st clicks) := by
  induction clicks with
  | nil => intro st h; simpa [runLegendClicks] using h
  | cons c rest ih =>
      intro st h
      simpa [runLegendClicks] using ih (legendClick st c).1 (legendInv_click st c h)

/- ===== Claim C3: legend click lock toggling ===== -/

/-- Claim C3: after any sequence of legend clicks starting from the initial
state, at most one legend row is locked (carries `active-legend`); clicking
the locked row once restores elements, unlocks it and clears the active
class; clicking a different row while another is locked first restores
(unlocking the previous selector) and then highlights and locks the new
one; clicking with nothing locked just highlights and locks. -/
theorem legendClick_at_most_one_locked (clicks : List String) (s : String) :
    ((runLegendClicks legendInit clicks).activeLegend.length ≤ 1)
  ∧ ((runLegendClicks legendInit clicks).currentlyHighlighted = some s →
      legendClick (runLegendClicks legendInit clicks) s
        = ({ currentlyHighlighted := none, activeLegend := [] }, [LegendEffect.restore]))
  ∧ (∀ t, (runLegendClicks legendInit clicks).currentlyHighlighted = some t → t ≠ s →
      legendClick (runLegendClicks legendInit clicks) s
        = ({ currentlyHighlighted := some s, activeLegend := [s] },
           [LegendEffect.restore, LegendEffect.highlight s]))
  ∧ ((runLegendClicks legendInit clicks).currentlyHighlighted = none →
      legendClick (runLegendClicks legendInit clicks) s
        = ({ currentlyHighlighted := some s, activeLegend := [s] },
           [LegendEffect.highlight s])) := by
  have hinv := legendInv_run clicks legendInit legendInv_init
  refine ⟨?_, ?_, ?_, ?_⟩
  · cases hc : (runLegendClicks legendInit clicks).currentlyHighlighted with
    | none =>
        have ha : (runLegendClicks legendInit clicks).activeLegend = [] := by
          simpa [legendInv, hc] using hinv
        simp [ha]
    | some t =>
        have ha : (runLegendClicks legendInit clicks).activeLegend = [t] := by
          simpa [legendInv, hc] using hinv
        simp [ha]
  · intro hc
    have ha : (runLegendClicks legendInit clicks).activeLegend = [s] := by
      simpa [legendInv, hc] using hinv
    simp [legendClick, hc, ha]
  · intro t hc hts
    have ha : (runLegendClicks legendInit clicks).activeLegend = [t] := by
      simpa [legendInv, hc] using hinv
    have hne : ¬ (runLegendClicks legendInit clicks).currentlyHighlighted = some s := by
      simp [hc]
      exact hts
    simp [legendClick, hc, ha, hne, hts]
  · intro hc
    have ha : (runLegendClicks legendInit clicks).activeLegend = [] := by
      simpa [legendInv, hc] using hinv
    simp [legendClick, hc, ha]

/-- Witness for C3: after clicking row "a", clicking "a" again unlocks and
restores; clicking "b" instead restores then locks "b". -/
theorem legendClick_at_most_one_locked_witness :
    ((runLegendClicks legendInit ["a"]).activeLegend.length ≤ 1)
  ∧ legendClick (runLegendClicks legendInit ["a"]) "a"
      = ({ currentlyHighlighted := none, activeLegend := [] }, [LegendEffect.restore])
  ∧ legendClick (runLegendClicks legendInit ["a"]) "b"
      = ({ currentlyHighlighted := some "b", activeLegend := ["b"] },
         [LegendEffect.restore, LegendEffect.highlight "b"]) :=
  ⟨(legendClick_at_most_one_locked ["a"] "a").1,
   (legendClick_at_most_one_locked ["a"] "a").2.1 (by decide),
   (legendClick_at_most_one_locked ["a"] "b").2.2.1 "a" (by decide) (by decide)⟩

/- ===== Claim C6: legend hover preview unless locked ===== -/

/-- Claim C6: in any state satisfying the legend invariant, hovering a
legend row applies a preview highlight and unhovering restores elements,
except when that row's selector is the locked one, in which case both
handlers do nothing. -/
theorem legendHover_preview_unless_locked (st : LegendState) (s : String)
    (h : legendInv st) :
    (st.currentlyHighlighted = some s →
      legendMouseover st s = none ∧ legendMouseout st s = none)
  ∧ (st.currentlyHighlighted ≠ some s →
      legendMouseover st s = some (LegendEffect.highlight s)
      ∧ legendMouseout st s = some LegendEffect.restore) := by
  constructor
  · intro hc
    have ha : st.activeLegend = [s] := by simpa [legendInv, hc] using h
    simp [legendMouseover, legendMouseout, hc, ha]
  · intro hc
    have hmem : s ∉ st.activeLegend := by
      cases hcc : st.currentlyHighlighted with
      | none =>
          have ha : st.activeLegend = [] := by simpa [legendInv, hcc] using h
          simp [ha]
      | some t =>
          have ha : st.activeLegend = [t] := by simpa [legendInv, hcc] using h
          have : t ≠ s := by
            intro hts
            exact hc (hts ▸ hcc)
          simp [ha]
          intro hst
          exact this hst.symm
    simp [legendMouseover, legendMouseout, hc, hmem]

/-- Witness for C6: with "x" locked, hovering "x" does nothing; hovering
"y" previews and unhovering restores. -/
theorem legendHover_preview_unless_locked_witness :
    legendMouseover { currentlyHighlighted := some "x", activeLegend := ["x"] } "x" = none
  ∧ legendMouseover { currentlyHighlighted := some "x", activeLegend := ["x"] } "y"
      = some (LegendEffect.highlight "y")
  ∧ legendMouseout { currentlyHighlighted := some "x", activeLegend := ["x"] } "y"
      = some LegendEffect.restore :=
  ⟨((legendHover_preview_unless_locked
        { currentlyHighlighted := some "x", activeLegend := ["x"] } "x" rfl).1 (by decide)).1,
   ((legendHover_preview_unless_locked
        { currentlyHighlighted := some "x", activeLegend := ["x"] } "y" rfl).2 (by decide)).1,
   ((legendHover_preview_unless_locked
        { currentlyHighlighted := some "x", activeLegend := ["x"] } "y" rfl).2 (by decide)).2⟩

/- ===== Helper lemmas: tooltip cancellation ===== -/

theorem tooltipStep_preserves_cancelled {t : Nat} {st : TooltipState}
    (h : t ∈ st.cancelled ∧ t ∉ st.shown) (e : TooltipEvent) :
    t ∈ (tooltipStep st e).cancelled ∧ t ∉ (tooltipStep st e).shown := by
  cases e with
  | mouseoverNode t2 => simpa [tooltipStep] using h
  | mouseoutNode =>
      cases hs : st.showTimeout with
      | none => simpa [tooltipStep, hs] using h
      | some t2 =>
          refine ⟨?_, ?_⟩
          · simp [tooltipStep, hs]
            right
            exact h.1
          · simpa [tooltipStep, hs] using h.2
  | timerFire t2 =>
      by_cases ht2 : t2 ∈ st.cancelled
      · simpa [tooltipStep, ht2] using h
      · have hne : t ≠ t2 := by
          intro he
          exact ht2 (he ▸ h.1)
        refine ⟨?_, ?_⟩
        · simpa [tooltipStep, ht2] using h.1
        · simp [tooltipStep, ht2]
          exact ⟨hne, h.2⟩

theorem tooltipRun_preserves_cancelled {t : Nat} (evts : List TooltipEvent) :
    ∀ st : TooltipState, t ∈ st.cancelled ∧ t ∉ st.shown →
      t ∈ (tooltipRun st evts).cancelled ∧ t ∉ (tooltipRun st evts).shown := by
  induction evts with
  | nil => intro st h; simpa [tooltipRun] using h
  | cons e rest ih =>
      intro st h
      simpa [tooltipRun] using ih (tooltipStep st e) (tooltipStep_preserves_cancelled h e)

/- ===== Claim C9: tooltip delay cancellation ===== -/

/-- Claim C9: when the pointer leaves a node before the tooltip delay timer
fires (the mouseout handler runs with the timer still pending), the pending
timer is cleared and its tooltip never appears, no matter what events follow
— in particular a late fire of that timer is a no-op. -/
theorem tooltip_cancelled_on_mouseout (st : TooltipState) (t : Nat)
    (rest : List TooltipEvent) (hshown : t ∉ st.shown) :
    (t ∈ (tooltipStep (tooltipStep st (TooltipEvent.mouseoverNode t))
            TooltipEvent.mouseoutNode).cancelled)
  ∧ (t ∉ (tooltipRun (tooltipStep (tooltipStep st (TooltipEvent.mouseoverNode t))
            TooltipEvent.mouseoutNode) rest).shown) := by
  have hbase :
      t ∈ (tooltipStep (tooltipStep st (TooltipEvent.mouseoverNode t))
            TooltipEvent.mouseoutNode).cancelled
      ∧ t ∉ (tooltipStep (tooltipStep st (TooltipEvent.mouseoverNode t))
            TooltipEvent.mouseoutNode).shown := by
    constructor
    · show t ∈ t :: st.cancelled
      exact List.mem_cons_self t st.cancelled
    · show t ∉ st.shown
      exact hshown
  exact ⟨hbase.1, (tooltipRun_preserves_cancelled rest _ hbase).2⟩

/-- Witness for C9: from the pristine state, hover then mouseout cancels
timer 0, and a late fire of timer 0 shows nothing. -/
theorem tooltip_cancelled_on_mouseout_witness :
    (0 ∈ (tooltipStep (tooltipStep { showTimeout := none, cancelled := [], shown := [] }
            (TooltipEvent.mouseoverNode 0)) TooltipEvent.mouseoutNode).cancelled)
  ∧ (0 ∉ (tooltipRun (tooltipStep (tooltipStep
            { showTimeout := none, cancelled := [], shown := [] }
            (TooltipEvent.mouseoverNode 0)) TooltipEvent.mouseoutNode)
            [TooltipEvent.timerFire 0]).shown) :=
  ⟨(tooltip_cancelled_on_mouseout { showTimeout := none, cancelled := [], shown := [] }
      0 [TooltipEvent.timerFire 0] (by decide)).1,
   (tooltip_cancelled_on_mouseout { showTimeout := none, cancelled := [], shown := [] }
      0 [TooltipEvent.timerFire 0] (by decide)).2⟩

/- ===== Helper lemmas: lower-casing ===== -/

theorem strToLower_empty : strToLower "" = "" := rfl

theorem strToLower_ne_empty {s : String} (h : s ≠ "") : strToLower s ≠ "" := by
  cases s with
  | mk data =>
      cases data with
      | nil => exact absurd rfl h
      | cons c cs =>
          intro hcon
          have h2 : (strToLower (String.mk (c :: cs))).data = ("" : String).data :=
            congrArg String.data hcon
          exact List.cons_ne_nil _ _ h2

/- ===== Claim C5: search handler ===== -/

/-- Claim C5: the search-input handler leaves the lock state untouched; an
empty query clears all highlighting (for every lock state — and the handler
is a total function, so it cannot throw); a non-empty query highlights
exactly the nodes whose name or message text contains the query as a
case-insensitive substring. -/
theorem searchInputHandler_semantics (nodes : List SNode) (lock : Option String)
    (value : String) :
    ((searchInputHandler nodes lock value).2 = lock)
  ∧ (value = "" → searchInputHandler nodes lock value = ([], lock))
  ∧ (value ≠ "" → ∀ n, n ∈ (searchInputHandler nodes lock value).1 ↔
      n ∈ nodes ∧
        (listContainsSub (strToLower value).toList (strToLower n.name).toList
         || listContainsSub (strToLower value).toList (strToLower n.msg).toList) = true) := by
  refine ⟨rfl, ?_, ?_⟩
  · intro h
    subst h
    rfl
  · intro h n
    have hq : strToLower value ≠ "" := strToLower_ne_empty h
    simp [searchInputHandler, highlightNodesByQuery, hq, List.mem_filter]

/-- Witness for C5: empty query clears highlighting under a held lock; the
query "ell" (case-insensitively) matches the node named "Alice" through its
message "Hello". -/
theorem searchInputHandler_semantics_witness :
    searchInputHandler [{ name := "Alice", msg := "Hello" }] (some "lockedSel") "" 
      = ([], some "lockedSel")
  ∧ ({ name := "Alice", msg := "Hello" } ∈
      (searchInputHandler [{ name := "Alice", msg := "Hello" }] (some "lockedSel") "ELL").1 ↔
      ({ name := "Alice", msg := "Hello" } : SNode) ∈ [({ name := "Alice", msg := "Hello" } : SNode)] ∧
        (listContainsSub (strToLower "ELL").toList (strToLower "Alice").toList
         || listContainsSub (strToLower "ELL").toList (strToLower "Hello").toList) = true) :=
  ⟨(searchInputHandler_semantics [{ name := "Alice", msg := "Hello" }] (some "lockedSel") "").2.1 rfl,
   (searchInputHandler_semantics [{ name := "Alice", msg := "Hello" }] (some "lockedSel") "ELL").2.2
     (by decide) { name := "Alice", msg := "Hello" }⟩

/- ===== Helper lemmas: first-seen deduplication ===== -/

theorem mem_dedupFirst (l : List String) (a : String) : a ∈ dedupFirst l ↔ a ∈ l := by
  induction l using dedupFirst.induct with
  | case1 => simp [dedupFirst]
  | case2 x xs ih =>
      rw [dedupFirst]
      simp only [List.mem_cons, ih, List.mem_filter]
      by_cases hax : a = x <;> simp [hax]

theorem dedupFirst_nodup (l : List String) : (dedupFirst l).Nodup := by
  induction l using dedupFirst.induct with
  | case1 => simp [dedupFirst]
  | case2 x xs ih =>
      rw [dedupFirst]
      refine List.nodup_cons.mpr ⟨?_, ih⟩
      rw [mem_dedupFirst]
      simp [List.mem_filter]

theorem dedupFirst_cons (x : String) (xs : List String) :
    dedupFirst (x :: xs) = x :: dedupFirst (xs.filter (fun y => y ≠ x)) := by
  rw [dedupFirst]

/- ===== Helper lemmas: legend loops ===== -/

theorem nodeLegendItems_texts (nodes : List LNode) :
    ∀ seen : List String,
      (nodeLegendItems nodes seen).map LegendItem.text
        = dedupFirst ((nodes.map LNode.name).filter
            (fun nm => decide (nm ≠ "" ∧ nm ∉ seen))) := by
  induction nodes with
  | nil => intro seen; simp [nodeLegendItems, dedupFirst]
  | cons n rest ih =>
      intro seen
      by_cases h : n.name ≠ "" ∧ n.name ∉ seen
      · rw [nodeLegendItems, if_pos h]
        have hp : decide (n.name ≠ "" ∧ n.name ∉ seen) = true := by simpa using h
        rw [List.map_cons, List.map_cons, List.filter_cons, if_pos hp, dedupFirst_cons]
        rw [List.filter_filter]
        rw [ih (n.name :: seen)]
        congr 1
        apply congrArg
        apply List.filter_congr
        intro a _
        by_cases h1 : a = "" <;> by_cases h2 : a = n.name <;>
          by_cases h3 : a ∈ seen <;> simp [h1, h2, h3]
      · rw [nodeLegendItems, if_neg h]
        simp only [List.map_cons, List.filter_cons]
        rw [if_neg (by simpa using h)]
        exact ih seen

theorem nodeLegendItems_circle (nodes : List LNode) :
    ∀ (seen : List String) (item : LegendItem), item ∈ nodeLegendItems nodes seen →
      item.itemType = "circle" := by
  induction nodes with
  | nil => intro seen item h; simp [nodeLegendItems] at h
  | cons n rest ih =>
      intro seen item h
      rw [nodeLegendItems] at h
      by_cases hc : n.name ≠ "" ∧ n.name ∉ seen
      · rw [if_pos hc] at h
        rcases List.mem_cons.mp h with heq | hrest
        · subst heq; rfl
        · exact ih _ _ hrest
      · rw [if_neg hc] at h
        exact ih _ _ h

theorem edgeLegendItems_colors (edges : List LEdge) :
    ∀ seen : List String,
      (edgeLegendItems edges seen).map LegendItem.color
        = dedupFirst ((edges.map LEdge.color).filter
            (fun c => decide (c ≠ "" ∧ c ∉ seen))) := by
  induction edges with
  | nil => intro seen; simp [edgeLegendItems, dedupFirst]
  | cons e rest ih =>
      intro seen
      by_cases h : e.color ≠ "" ∧ e.color ∉ seen
      · rw [edgeLegendItems, if_pos h]
        have hp : decide (e.color ≠ "" ∧ e.color ∉ seen) = true := by simpa using h
        rw [List.map_cons, List.map_cons, List.filter_cons, if_pos hp, dedupFirst_cons]
        rw [List.filter_filter]
        rw [ih (e.color :: seen)]
        congr 1
        apply congrArg
        apply List.filter_congr
        intro a _
        by_cases h1 : a = "" <;> by_cases h2 : a = e.color <;>
          by_cases h3 : a ∈ seen <;> simp [h1, h2, h3]
      · rw [edgeLegendItems, if_neg h]
        simp only [List.map_cons, List.filter_cons]
        rw [if_neg (by simpa using h)]
        exact ih seen

theorem edgeLegendItems_sound (edges : List LEdge) :
    ∀ (seen : List String) (item : LegendItem), item ∈ edgeLegendItems edges seen →
      ∃ e, e ∈ edges ∧ item.color = e.color ∧ item.text = edgeLabel e
        ∧ item.itemType = "line" := by
  induction edges with
  | nil => intro seen item h; simp [edgeLegendItems] at h
  | cons e rest ih =>
      intro seen item h
      rw [edgeLegendItems] at h
      by_cases hc : e.color ≠ "" ∧ e.color ∉ seen
      · rw [if_pos hc] at h
        rcases List.mem_cons.mp h with heq | hrest
        · subst heq
          exact ⟨e, List.mem_cons_self e rest, rfl, rfl, rfl⟩
        · rcases ih _ _ hrest with ⟨e2, he2, h1, h2, h3⟩
          exact ⟨e2, List.mem_cons_of_mem e he2, h1, h2, h3⟩
      · rw [if_neg hc] at h
        rcases ih _ _ h with ⟨e2, he2, h1, h2, h3⟩
        exact ⟨e2, List.mem_cons_of_mem e he2, h1, h2, h3⟩

theorem nodeLegendItems_texts_nil (nodes : List LNode) :
    (nodeLegendItems nodes []).map LegendItem.text
      = dedupFirst ((nodes.map LNode.name).filter (fun nm => decide (nm ≠ ""))) := by
  rw [nodeLegendItems_texts nodes []]
  congr 1
  apply List.filter_congr
  intro a _
  simp

theorem edgeLegendItems_colors_nil (edges : List LEdge) :
    (edgeLegendItems edges []).map LegendItem.color
      = dedupFirst ((edges.map LEdge.color).filter (fun c => decide (c ≠ ""))) := by
  rw [edgeLegendItems_colors edges []]
  congr 1
  apply List.filter_congr
  intro a _
  simp

/- ===== Claim C4: legend builder output ===== -/

/-- Claim C4: `createLegend` discards all pre-existing legend entries and
produces node entries first (exactly one per distinct non-empty node name,
first-seen order, "circle" symbol) followed by edge entries (exactly one per
distinct non-empty edge color, "line" symbol, labelled with the
corresponding edge's bookmarkName or "Path of {color}" when that is
absent/empty). -/
theorem createLegend_structure (old : List LegendItem) (nodes : List LNode)
    (edges : List LEdge) :
    (createLegend old nodes edges = nodeLegendItems nodes [] ++ edgeLegendItems edges [])
  ∧ (createLegend old nodes edges = createLegend [] nodes edges)
  ∧ ((nodeLegendItems nodes []).map LegendItem.text
       = dedupFirst ((nodes.map LNode.name).filter (fun nm => decide (nm ≠ ""))))
  ∧ (((nodeLegendItems nodes []).map LegendItem.text).Nodup)
  ∧ (∀ nm, nm ∈ (nodeLegendItems nodes []).map LegendItem.text ↔
       nm ∈ nodes.map LNode.name ∧ nm ≠ "")
  ∧ (∀ item, item ∈ nodeLegendItems nodes [] → item.itemType = "circle")
  ∧ ((edgeLegendItems edges []).map LegendItem.color
       = dedupFirst ((edges.map LEdge.color).filter (fun c => decide (c ≠ ""))))
  ∧ (((edgeLegendItems edges []).map LegendItem.color).Nodup)
  ∧ (∀ c, c ∈ (edgeLegendItems edges []).map LegendItem.color ↔
       c ∈ edges.map LEdge.color ∧ c ≠ "")
  ∧ (∀ item, item ∈ edgeLegendItems edges [] →
       ∃ e, e ∈ edges ∧ item.color = e.color ∧ item.text = edgeLabel e
         ∧ item.itemType = "line") := by
  refine ⟨rfl, rfl, nodeLegendItems_texts_nil nodes, ?_, ?_,
          nodeLegendItems_circle nodes [], edgeLegendItems_colors_nil edges, ?_, ?_,
          edgeLegendItems_sound edges []⟩
  · rw [nodeLegendItems_texts_nil]
    exact dedupFirst_nodup _
  · intro nm
    rw [nodeLegendItems_texts_nil, mem_dedupFirst, List.mem_filter]
    simp
  · rw [edgeLegendItems_colors_nil]
    exact dedupFirst_nodup _
  · intro c
    rw [edgeLegendItems_colors_nil, mem_dedupFirst, List.mem_filter]
    simp

/-- Witness for C4 on a concrete graph: a produced node row has the "circle"
symbol, and the synthesized "Path of {color}" label of an edge row whose
first edge with that color has an empty bookmarkName traces back to that
edge. -/
theorem createLegend_structure_witness :
    (({ color := "red", text := "Alice", itemType := "circle" } : LegendItem).itemType
       = "circle")
  ∧ (∃ e, e ∈ [({ color := "#f00", bookmarkName := "branch1" } : LEdge),
               { color := "#0f0", bookmarkName := "" },
               { color := "#f00", bookmarkName := "other" }] ∧
       ({ color := "#0f0", text := "Path of #0f0", itemType := "line" } : LegendItem).color
         = e.color ∧
       ({ color := "#0f0", text := "Path of #0f0", itemType := "line" } : LegendItem).text
         = edgeLabel e ∧
       ({ color := "#0f0", text := "Path of #0f0", itemType := "line" } : LegendItem).itemType
         = "line") :=
  ⟨(createLegend_structure []
      [{ name := "Alice", bgColor := "red" }, { name := "", bgColor := "x" },
       { name := "Alice", bgColor := "red" }, { name := "Bob", bgColor := "blue" }]
      [{ color := "#f00", bookmarkName := "branch1" }, { color := "#0f0", bookmarkName := "" },
       { color := "#f00", bookmarkName := "other" }]).2.2.2.2.2.1
      { color := "red", text := "Alice", itemType := "circle" } (by decide),
   (createLegend_structure []
      [{ name := "Alice", bgColor := "red" }, { name := "", bgColor := "x" },
       { name := "Alice", bgColor := "red" }, { name := "Bob", bgColor := "blue" }]
      [{ color := "#f00", bookmarkName := "branch1" }, { color := "#0f0", bookmarkName := "" },
       { color := "#f00", bookmarkName := "other" }]).2.2.2.2.2.2.2.2.2
      { color := "#0f0", text := "Path of #0f0", itemType := "line" } (by decide)⟩
